import Mathlib

/-!
Verification development for the reflex file-watcher (github.com/cespare/reflex).

The Go sources are embedded shallowly:

* `Regexp` is the abstract syntax of Go `regexp/syntax` regular expressions
  (the ops the repository's patterns use), with an executable unanchored
  matcher `matchString` standing for `regexp.Regexp.MatchString`.
* `Matcher` mirrors the Go `Matcher` interface of match.go as a structure of
  its two methods; `matchAll`, `globMatcher`, `newRegexMatcher` and
  `multiMatcher` build the interface values exactly as the Go constructors do.
* The backlogs, the output decorator `printMsg`, the config reader and the
  `NewReflex` validation are translated function by function; Go panics are
  modelled as `none` and Go `error` returns as `Except String`.
-/

namespace Reflex

/-! ## Regular expressions (Go regexp/syntax)

`Regexp` is the parsed form of a Go regular expression, covering the ops that
appear in the repository (`regexp/syntax.Parse` with `syntax.Perl` flags: `^`
is `OpBeginText`, `$` and `\z` are `OpEndText`, `\b` is `OpWordBoundary`,
`.` is `OpAnyCharNotNL`).  Concrete patterns from the sources are translated
to this syntax by hand where they are needed. -/

inductive Regexp : Type where
  | emptyMatch : Regexp
  | lit : List Char → Regexp
  | charClass : List (Char × Char) → Regexp
  | anyCharNotNL : Regexp
  | beginText : Regexp
  | endText : Regexp
  | endLine : Regexp
  | wordBoundary : Regexp
  | cat : Regexp → Regexp → Regexp
  | alt : Regexp → Regexp → Regexp
  | star : Regexp → Regexp
  | capture : Regexp → Regexp
deriving DecidableEq

/-- Size of the syntax tree, used only to choose an ample fuel for the
matcher. -/
def Regexp.size : Regexp → Nat
  | .emptyMatch | .lit _ | .charClass _ | .anyCharNotNL
  | .beginText | .endText | .endLine | .wordBoundary => 1
  | .cat a b | .alt a b => a.size + b.size + 1
  | .star a | .capture a => a.size + 1

/-- Go's `\b` word characters: ASCII letters, digits and underscore. -/
def isWordChar (c : Char) : Bool :=
  c.isAlpha || c.isDigit || c == '_'

def wordCharAt (s : List Char) (i : Nat) : Bool :=
  match s[i]? with
  | some c => isWordChar c
  | none => false

def inClass (ranges : List (Char × Char)) (c : Char) : Bool :=
  ranges.any (fun r => decide (r.1 ≤ c) && decide (c ≤ r.2))

/-- All end positions of a match of `re` starting at position `i` of `s`,
with the full string available for the zero-width assertions.  `fuel` bounds
the recursion depth (a star iteration must consume input, so
`matchFuel` below is always enough on concrete inputs). -/
def matchEnds : Nat → Regexp → List Char → Nat → List Nat
  | 0, _, _, _ => []
  | fuel + 1, re, s, i =>
    match re with
    | .emptyMatch => [i]
    | .lit cs => if (s.drop i).take cs.length = cs then [i + cs.length] else []
    | .charClass ranges =>
      match s[i]? with
      | some c => if inClass ranges c then [i + 1] else []
      | none => []
    | .anyCharNotNL =>
      match s[i]? with
      | some c => if c = '\n' then [] else [i + 1]
      | none => []
    | .beginText => if i = 0 then [i] else []
    | .endText => if i = s.length then [i] else []
    | .endLine => if i = s.length then [i] else []
    | .wordBoundary =>
      let before := match i with
        | 0 => false
        | j + 1 => wordCharAt s j
      if before != wordCharAt s i then [i] else []
    | .cat a b => (matchEnds fuel a s i).flatMap (fun j => matchEnds fuel b s j)
    | .alt a b => matchEnds fuel a s i ++ matchEnds fuel b s i
    | .capture a => matchEnds fuel a s i
    | .star a =>
      i :: ((matchEnds fuel a s i).filter (fun j => i < j)).flatMap
        (fun j => matchEnds fuel (.star a) s j)

def matchFuel (re : Regexp) (s : List Char) : Nat :=
  (re.size + 1) * (s.length + 2)

/-- `regexp.Regexp.MatchString`: unanchored search anywhere in `s`. -/
def matchString (re : Regexp) (s : String) : Bool :=
  let cs := s.data
  (List.range (cs.length + 1)).any
    (fun i => !(matchEnds (matchFuel re cs) re cs i).isEmpty)

/-- The AST walk of `regexMatcher.ExcludePrefix` (match.go): does the regex
contain one of the zero-width ops `OpEndLine`, `OpEndText`,
`OpWordBoundary`?  The Go code pushes every subexpression on a stack and
inspects each node; this is the same test, recursively. -/
def containsZeroWidth : Regexp → Bool
  | .endText => true
  | .endLine => true
  | .wordBoundary => true
  | .cat a b => containsZeroWidth a || containsZeroWidth b
  | .alt a b => containsZeroWidth a || containsZeroWidth b
  | .star a => containsZeroWidth a
  | .capture a => containsZeroWidth a
  | .emptyMatch => false
  | .lit _ => false
  | .charClass _ => false
  | .anyCharNotNL => false
  | .beginText => false

/-! ## The Matcher interface (match.go)

Go's `Matcher` is an interface with methods `Match` and `ExcludePrefix`;
the embedding is a structure of those two functions, and each Go matcher
type becomes a constructor of such values. -/

structure Matcher : Type where
  Match : String → Bool
  ExcludePrefix : String → Bool

/-- `matchAll`: always matches, never excludes. -/
def matchAll : Matcher :=
  { Match := fun _ => true, ExcludePrefix := fun _ => false }

/-- `regexMatcher.ExcludePrefix` (match.go).  `pat` is what
`m.regex.String()` returns (the source text of the pattern) and `re` its
parse; `canExcludePrefix`, which Go memoizes under a mutex, is
`!containsZeroWidth re`. -/
def regexMatcherExclude (pat : String) (re : Regexp) (inverse : Bool)
    (pre : String) : Bool :=
  if !inverse then false
  else if !(matchString re pre) || pat == "" then false
  else !(containsZeroWidth re)

/-- `newRegexMatcher` (match.go): `Match` is `MatchString(name) != inverse`. -/
def newRegexMatcher (pat : String) (re : Regexp) (inverse : Bool) : Matcher :=
  { Match := fun name => matchString re name != inverse
    ExcludePrefix := regexMatcherExclude pat re inverse }

/-- `multiMatcher.Match`: the loop over sub-matchers with early `false`. -/
def multiMatch : List Matcher → String → Bool
  | [], _ => true
  | m :: ms, name => if m.Match name then multiMatch ms name else false

/-- `multiMatcher.ExcludePrefix`: the loop with early `true`. -/
def multiExclude : List Matcher → String → Bool
  | [], _ => false
  | m :: ms, pre => if m.ExcludePrefix pre then true else multiExclude ms pre

/-- A `multiMatcher` value as a `Matcher` interface value. -/
def multiMatcher (ms : List Matcher) : Matcher :=
  { Match := multiMatch ms, ExcludePrefix := multiExclude ms }

/-! ## Default excludes (defaultexclude.go)

Each entry carries the Go pattern string together with its parse. -/

/-- The parse of `(^|/)`: a capture of `^` or the literal `/`. -/
def beginOrSlash : Regexp := .capture (.alt .beginText (.lit ['/']))

def defaultExcludes : List (String × Regexp) :=
  [ ("(^|/)\\.jj/", .cat beginOrSlash (.lit ".jj/".data)),
    ("(^|/)\\.git/", .cat beginOrSlash (.lit ".git/".data)),
    ("(^|/)\\.hg/", .cat beginOrSlash (.lit ".hg/".data)),
    ("~$", .cat (.lit ['~']) .endText),
    ("\\.swp$", .cat (.lit ".swp".data) .endText),
    ("\\.#", .lit ".#".data),
    ("(^|/)#.*#$",
      .cat beginOrSlash
        (.cat (.lit ['#']) (.cat (.star .anyCharNotNL) (.cat (.lit ['#']) .endText)))),
    ("(^|/)\\.DS_Store$", .cat beginOrSlash (.cat (.lit ".DS_Store".data) .endText)) ]

/-- `defaultExcludeMatcher`: a `multiMatcher` of one inverse regex matcher
per pattern, in order. -/
def defaultExcludeMatcher : Matcher :=
  multiMatcher (defaultExcludes.map (fun pr => newRegexMatcher pr.1 pr.2 true))

/-! ## filepath.Match (Go standard library, used by globMatcher)

A character-level translation of Go's `path/filepath.Match` on a Unix
system (`Separator = '/'`, backslash escapes enabled).  `none` stands for
`ErrBadPattern`. -/

/-- `getEsc`: one (possibly escaped) endpoint of a character-class range. -/
def getEsc (chunk : List Char) : Option (Char × List Char) :=
  match chunk with
  | [] => none
  | c :: rest =>
    if c = '-' || c = ']' then none
    else
      let step : Option (Char × List Char) :=
        if c = '\\' then
          match rest with
          | [] => none
          | c2 :: rest2 => some (c2, rest2)
        else some (c, rest)
      match step with
      | none => none
      | some (r, nchunk) => if nchunk.isEmpty then none else some (r, nchunk)

/-- The range-parsing loop inside `matchChunk`'s `[` case: scans ranges up
to the closing `]`, reporting whether `r` fell in some range.  `seen` is
Go's `nrange > 0`. -/
def matchClassRanges : Nat → List Char → Char → Bool → Bool →
    Option (List Char × Bool)
  | 0, _, _, _, _ => none
  | fuel + 1, chunk, r, found, seen =>
    match chunk with
    | ']' :: rest =>
      if seen then some (rest, found)
      else none
    | _ =>
      match getEsc chunk with
      | none => none
      | some (lo, rest) =>
        match rest with
        | '-' :: rest2 =>
          match getEsc rest2 with
          | none => none
          | some (hi, rest3) =>
            matchClassRanges fuel rest3 r
              (found || (decide (lo ≤ r) && decide (r ≤ hi))) true
        | _ =>
          matchClassRanges fuel rest r
            (found || (decide (lo ≤ r) && decide (r ≤ lo))) true

/-- `matchChunk`: match a chunk (no stars) against the head of `s`.
Returns the remaining name and Go's `ok`; `none` is `ErrBadPattern`.
`failed` records a mismatch whose reporting is delayed so the whole chunk
is still scanned for pattern errors. -/
def matchChunk : Nat → List Char → List Char → Bool → Option (List Char × Bool)
  | 0, _, _, _ => none
  | fuel + 1, chunk, s, failed =>
    match chunk with
    | [] => if failed then some ([], false) else some (s, true)
    | c :: chunkRest =>
      let failed := failed || s.isEmpty
      if c = '[' then
        let rs : Char × List Char :=
          if failed then (Char.ofNat 0, s)
          else
            match s with
            | [] => (Char.ofNat 0, [])
            | sc :: sRest => (sc, sRest)
        let negated := chunkRest.head? == some '^'
        let chunk2 := if negated then chunkRest.tail else chunkRest
        match matchClassRanges (chunk2.length + 1) chunk2 rs.1 false false with
        | none => none
        | some (rest, found) =>
          matchChunk fuel rest rs.2 (failed || (found == negated))
      else if c = '?' then
        if failed then matchChunk fuel chunkRest s true
        else
          match s with
          | [] => matchChunk fuel chunkRest [] true
          | sc :: sRest => matchChunk fuel chunkRest sRest (sc == '/')
      else
        -- '\\' strips the escape and falls through to the literal compare
        let lit : Option (Char × List Char) :=
          if c = '\\' then
            match chunkRest with
            | [] => none
            | e :: eRest => some (e, eRest)
          else some (c, chunkRest)
        match lit with
        | none => none
        | some (litc, rest) =>
          let pair : Bool × List Char :=
            if failed then (failed, s)
            else
              match s with
              | [] => (failed, [])
              | sc :: sRest => (failed || litc != sc, sRest)
          matchChunk fuel rest pair.2 pair.1

/-- `scanChunk`'s scan loop after the leading stars: cut at the first `*`
outside a character class. -/
def scanChunkBody : List Char → Bool → List Char × List Char
  | [], _ => ([], [])
  | c :: rest, inrange =>
    if c = '*' && !inrange then ([], c :: rest)
    else if c = '\\' then
      match rest with
      | [] => ([c], [])
      | c2 :: rest2 =>
        let p := scanChunkBody rest2 inrange
        (c :: c2 :: p.1, p.2)
    else
      let inrange' := if c = '[' then true else if c = ']' then false else inrange
      let p := scanChunkBody rest inrange'
      (c :: p.1, p.2)

/-- `scanChunk`: strip leading `*`s, then cut one star-free chunk. -/
def scanChunk : List Char → Bool × List Char × List Char
  | '*' :: rest =>
    let p := scanChunk rest
    (true, p.2)
  | pat =>
    let p := scanChunkBody pat false
    (false, p.1, p.2)

/-- The inner retry loop of `Match` after a star: try the chunk at every
later position of the name up to a `/`.  `.error` is `ErrBadPattern`,
`.ok (some t)` resumes the outer loop with name `t`, `.ok none` exhausts. -/
def starRetry (chunk patternRest : List Char) : List Char →
    Except Unit (Option (List Char))
  | [] => .ok none
  | c :: rest =>
    if c = '/' then .ok none
    else
      match matchChunk (chunk.length + 1) chunk rest false with
      | none => .error ()
      | some (t, true) =>
        if patternRest.isEmpty && !t.isEmpty then starRetry chunk patternRest rest
        else .ok (some t)
      | some (_, false) => starRetry chunk patternRest rest

/-- The validity scan Go runs over the rest of the pattern before returning
a non-match: `some false` is `false, nil`, `none` is `ErrBadPattern`. -/
def checkPatternValidity : Nat → List Char → Option Bool
  | 0, _ => none
  | fuel + 1, pattern =>
    match pattern with
    | [] => some false
    | _ =>
      let p := scanChunk pattern
      match matchChunk (p.2.1.length + 1) p.2.1 [] false with
      | none => none
      | some _ => checkPatternValidity fuel p.2.2

/-- The `Pattern:` loop of `filepath.Match`. -/
def fpMatchBody : Nat → List Char → List Char → Option Bool
  | 0, _, _ => none
  | fuel + 1, pattern, nm =>
    match pattern with
    | [] => some nm.isEmpty
    | _ =>
      let p := scanChunk pattern
      let star := p.1
      let chunk := p.2.1
      let rest := p.2.2
      if star && chunk.isEmpty then some (!nm.contains '/')
      else
        match matchChunk (chunk.length + 1) chunk nm false with
        | none => none
        | some (t, ok) =>
          if ok && (t.isEmpty || !rest.isEmpty) then fpMatchBody fuel rest t
          else
            match (if star then starRetry chunk rest nm else .ok none) with
            | .error () => none
            | .ok (some t') => fpMatchBody fuel rest t'
            | .ok none => checkPatternValidity (rest.length + 1) rest

/-- `filepath.Match pattern name`; `none` is `ErrBadPattern`. -/
def filepathMatch (pattern nm : String) : Option Bool :=
  fpMatchBody (pattern.data.length + 1) pattern.data nm.data

/-- `globMatcher.Match` (match.go): a pattern error from `filepath.Match`
yields `false` before the inverse flip. -/
def globMatcherMatch (glob : String) (inverse : Bool) (nm : String) : Bool :=
  match filepathMatch glob nm with
  | none => false
  | some matched => matched != inverse

/-- A `globMatcher` value: `ExcludePrefix` is constantly false. -/
def globMatcher (glob : String) (inverse : Bool) : Matcher :=
  { Match := globMatcherMatch glob inverse, ExcludePrefix := fun _ => false }

/-! ## ParseMatchers (match.go)

`compile` stands for `regexp.Compile`: the regex engine is the standard
library's, so the construction is parameterized over it (`none` is a
compilation error). -/

/-- One of the two regex loops of `ParseMatchers`: append a matcher per
pattern, stopping at the first compile error. -/
def appendRegexes (compile : String → Option Regexp) (inverse : Bool) :
    List String → List Matcher → Option (List Matcher)
  | [], acc => some acc
  | r :: rs, acc =>
    match compile r with
    | none => none
    | some re => appendRegexes compile inverse rs (acc ++ [newRegexMatcher r re inverse])

/-- `ParseMatchers` (match.go): seed with `matchAll` when the positive
regex and glob lists are both empty, then append positive regexes, inverse
regexes, positive globs, inverse globs.  The result is the member list of
the returned `multiMatcher`. -/
def ParseMatchers (compile : String → Option Regexp)
    (regexes inverseRegexes globs inverseGlobs : List String) :
    Option (List Matcher) :=
  let init : List Matcher :=
    if regexes.length = 0 && globs.length = 0 then [matchAll] else []
  match appendRegexes compile false regexes init with
  | none => none
  | some acc1 =>
    match appendRegexes compile true inverseRegexes acc1 with
    | none => none
    | some acc2 =>
      some ((acc2 ++ globs.map (fun g => globMatcher g false))
        ++ inverseGlobs.map (fun g => globMatcher g true))

/-- One regex matcher per pattern, `none` as soon as one pattern fails to
compile. -/
def compileAll (compile : String → Option Regexp) (inverse : Bool) :
    List String → Option (List Matcher)
  | [] => some []
  | r :: rs =>
    match compile r with
    | none => none
    | some re =>
      (compileAll compile inverse rs).map (fun l => newRegexMatcher r re inverse :: l)

/-- The amended specification of `ParseMatchers`, written from its observed
behaviour: a `matchAll` is prepended exactly when the positive regex and
positive glob lists are both empty (the inverse lists do not matter); then
come the positive regex matchers, the inverse regex matchers, the positive
glob matchers and the inverse glob matchers, in order; the construction
fails exactly when a pattern of one of the two regex lists fails to
compile, and glob patterns are never compiled. -/
def ParseMatchersSpec (compile : String → Option Regexp)
    (regexes inverseRegexes globs inverseGlobs : List String) :
    Option (List Matcher) :=
  match compileAll compile false regexes, compileAll compile true inverseRegexes with
  | some pos, some inv =>
    some ((if regexes.length = 0 && globs.length = 0 then [matchAll] else [])
      ++ pos ++ inv ++ globs.map (fun g => globMatcher g false)
      ++ inverseGlobs.map (fun g => globMatcher g true))
  | _, _ => none

/-- A concrete stand-in for `regexp.Compile` used by closed evaluations:
it knows the pattern `foo` and rejects everything else. -/
def compileFixture : String → Option Regexp :=
  fun p => if p = "foo" then some (Regexp.lit "foo".data) else none

/-! ## Backlogs (backlog.go)

The Go methods mutate a receiver; here they return the new state.  A Go
`panic` ("called on empty backlog") is modelled as `none`. -/

structure UnifiedBacklog : Type where
  s : String
  empty : Bool
deriving DecidableEq

def NewUnifiedBacklog : UnifiedBacklog := { s := "", empty := true }

/-- `UnifiedBacklog.Add`: keep the path only when empty. -/
def UnifiedBacklog.Add (b : UnifiedBacklog) (path : String) : UnifiedBacklog :=
  if b.empty then { s := path, empty := false } else b

/-- `UnifiedBacklog.Next`: panics on an empty backlog. -/
def UnifiedBacklog.Next (b : UnifiedBacklog) : Option String :=
  if b.empty then none else some b.s

/-- `UnifiedBacklog.RemoveOne`: panics on an empty backlog, else empties
the slot and reports `empty = true`. -/
def UnifiedBacklog.RemoveOne (b : UnifiedBacklog) : Option (UnifiedBacklog × Bool) :=
  if b.empty then none else some ({ s := "", empty := true }, true)

/-- `rest` is the key set of the Go map `map[string]struct{}`, kept as a
duplicate-free list; Go's unspecified map iteration order is refined by
taking the head of that list. -/
structure UniqueFilesBacklog : Type where
  empty : Bool
  next : String
  rest : List String
deriving DecidableEq

def NewUniqueFilesBacklog : UniqueFilesBacklog :=
  { empty := true, next := "", rest := [] }

/-- `UniqueFilesBacklog.Add`: first path becomes `next`; a duplicate of
`next` is dropped; anything else is inserted into the set. -/
def UniqueFilesBacklog.Add (b : UniqueFilesBacklog) (path : String) :
    UniqueFilesBacklog :=
  if b.empty then { b with next := path, empty := false }
  else if path = b.next then { b with empty := false }
  else { b with
    rest := if path ∈ b.rest then b.rest else b.rest ++ [path]
    empty := false }

/-- `UniqueFilesBacklog.Next`: panics on an empty backlog. -/
def UniqueFilesBacklog.Next (b : UniqueFilesBacklog) : Option String :=
  if b.empty then none else some b.next

/-- `UniqueFilesBacklog.RemoveOne`: panics on an empty backlog; with an
empty set the backlog becomes empty (`true`), else one set element moves
into `next` (`false`). -/
def UniqueFilesBacklog.RemoveOne (b : UniqueFilesBacklog) :
    Option (UniqueFilesBacklog × Bool) :=
  if b.empty then none
  else
    match b.rest with
    | [] => some ({ empty := true, next := "", rest := [] }, true)
    | x :: xs => some ({ empty := false, next := x, rest := xs }, false)

def UnifiedBacklog.addAll (b : UnifiedBacklog) (paths : List String) :
    UnifiedBacklog :=
  paths.foldl UnifiedBacklog.Add b

def UniqueFilesBacklog.addAll (b : UniqueFilesBacklog) (paths : List String) :
    UniqueFilesBacklog :=
  paths.foldl UniqueFilesBacklog.Add b

/-- Repeated `Next` then `RemoveOne` until `RemoveOne` reports
`empty = true`; `none` if an operation faults or the fuel runs out. -/
def UnifiedBacklog.drainAux : Nat → UnifiedBacklog → Option (List String)
  | 0, _ => none
  | fuel + 1, b =>
    match b.Next with
    | none => none
    | some p =>
      match b.RemoveOne with
      | none => none
      | some (b2, e) =>
        if e then some [p]
        else (UnifiedBacklog.drainAux fuel b2).map (fun l => p :: l)

def UnifiedBacklog.drain (b : UnifiedBacklog) : Option (List String) :=
  UnifiedBacklog.drainAux 1 b

/-- Repeated `Next` then `RemoveOne` until `RemoveOne` reports
`empty = true`; `none` if an operation faults or the fuel runs out. -/
def UniqueFilesBacklog.drainAux : Nat → UniqueFilesBacklog → Option (List String)
  | 0, _ => none
  | fuel + 1, b =>
    match b.Next with
    | none => none
    | some p =>
      match b.RemoveOne with
      | none => none
      | some (b2, e) =>
        if e then some [p]
        else (UniqueFilesBacklog.drainAux fuel b2).map (fun l => p :: l)

def UniqueFilesBacklog.drain (b : UniqueFilesBacklog) : Option (List String) :=
  UniqueFilesBacklog.drainAux (b.rest.length + 1) b

/-! ## Output decoration (print.go)

`printMsg` writes the decorated message to a writer; the embedding returns
the written text.  The Go function reads two globals: `decoration` and the
rule counter `reflexID` (note: the red-override of the fancy color tests
the global `reflexID`, not `msg.reflexID`); both are parameters here. -/

inductive Decoration : Type where
  | none
  | plain
  | fancy
deriving DecidableEq

def colorRed : Int := 31
def colorStart : Int := 32
def numColors : Int := 5

structure OutMsg : Type where
  reflexID : Int
  msg : String
deriving DecidableEq

/-- `strings.HasSuffix(msg, "\n")`. -/
def endsWithNewline (s : String) : Bool :=
  match s.data.getLast? with
  | some c => c = '\n'
  | _ => false

/-- `fmt.Sprintf("%02d", id)` for the rule ids that reach it (they are
nonnegative where the tag is built). -/
def sprintf02d (id : Int) : String :=
  if 0 ≤ id && id < 10 then "0" ++ toString id else toString id

/-- Everything `printMsg` writes before the conditional final newline:
the tag (plain and fancy), the color escape (fancy), the message, and the
reset escape (fancy). -/
def printMsgBody (decoration : Decoration) (reflexID : Int) (m : OutMsg) :
    String :=
  let tag :=
    if decoration = .fancy || decoration = .plain then
      if m.reflexID < 0 then "[info]" else "[" ++ sprintf02d m.reflexID ++ "]"
    else ""
  let head :=
    if decoration = .fancy then
      let color := m.reflexID.tmod numColors + colorStart
      let color := if reflexID < 0 then colorRed else color
      "\x1b[01;" ++ toString color ++ "m" ++ tag ++ " "
    else if decoration = .plain then tag ++ " "
    else ""
  let out := head ++ m.msg
  if decoration = .fancy then out ++ "\x1b[m" else out

/-- `printMsg` (print.go): the body, then a newline unless the message
already ends in one. -/
def printMsg (decoration : Decoration) (reflexID : Int) (m : OutMsg) :
    String :=
  let out := printMsgBody decoration reflexID m
  if endsWithNewline m.msg then out else out ++ "\n"

/-! ## Shell-style tokenization (github.com/kballard/go-shellquote, used by
config.go)

`Split` divides a command line into words: blanks separate, single quotes
are literal, double quotes allow the escapes `$`, a backtick, a double
quote, a newline and a backslash, and a bare backslash escapes one
character.  A translation of `shellquote.Split` for the config reader. -/

inductive SQError : Type where
  | unterminatedSingle
  | unterminatedDouble
  | unterminatedEscape
deriving DecidableEq

def isSplitChar (c : Char) : Bool :=
  c == ' ' || c == '\n' || c == '\t'

def isDoubleEscapeChar (c : Char) : Bool :=
  c == '$' || c == '\x60' || c == '"' || c == '\n' || c == '\\'

inductive SWMode : Type where
  | raw
  | single
  | double
deriving DecidableEq

/-- `splitWord`'s raw/single/double state machine, one consumed character
per step (the fuel is never exhausted when it starts above the input
length). -/
def splitWordGo : Nat → SWMode → List Char → List Char →
    Except SQError (String × List Char)
  | 0, _, _, _ => .error .unterminatedEscape
  | fuel + 1, .raw, input, acc =>
    match input with
    | [] => .ok (String.mk acc.reverse, [])
    | c :: rest =>
      if isSplitChar c then .ok (String.mk acc.reverse, rest)
      else if c = '\\' then
        match rest with
        | [] => .error .unterminatedEscape
        | c2 :: rest2 =>
          if c2 = '\n' then splitWordGo fuel .raw rest2 acc
          else splitWordGo fuel .raw rest2 (c2 :: acc)
      else if c = '\'' then splitWordGo fuel .single rest acc
      else if c = '"' then splitWordGo fuel .double rest acc
      else splitWordGo fuel .raw rest (c :: acc)
  | fuel + 1, .single, input, acc =>
    match input with
    | [] => .error .unterminatedSingle
    | c :: rest =>
      if c = '\'' then splitWordGo fuel .raw rest acc
      else splitWordGo fuel .single rest (c :: acc)
  | fuel + 1, .double, input, acc =>
    match input with
    | [] => .error .unterminatedDouble
    | c :: rest =>
      if c = '"' then splitWordGo fuel .raw rest acc
      else if c = '\\' then
        match rest with
        | [] => .error .unterminatedDouble
        | c2 :: rest2 =>
          if isDoubleEscapeChar c2 then
            if c2 = '\n' then splitWordGo fuel .double rest2 acc
            else splitWordGo fuel .double rest2 (c2 :: acc)
          else splitWordGo fuel .double rest2 (c2 :: c :: acc)
      else splitWordGo fuel .double rest (c :: acc)

/-- `shellquote.Split`'s outer loop: skip blanks and escaped newlines,
else read one word. -/
def shellSplitGo : Nat → List Char → List String → Except SQError (List String)
  | 0, _, acc => .ok acc.reverse
  | fuel + 1, input, acc =>
    match input with
    | [] => .ok acc.reverse
    | c :: rest =>
      if isSplitChar c then shellSplitGo fuel rest acc
      else if c = '\\' && rest.isEmpty then .error .unterminatedEscape
      else if c = '\\' && rest.head? == some '\n' then
        shellSplitGo fuel rest.tail acc
      else
        match splitWordGo (input.length + 1) .raw input [] with
        | .error e => .error e
        | .ok (w, remainder) => shellSplitGo fuel remainder (w :: acc)

def shellquoteSplit (line : String) : Except SQError (List String) :=
  shellSplitGo (line.data.length + 1) line.data []

/-! ## Config (config.go) and flag parsing (github.com/ogier/pflag)

The `Config` fields and their defaults are those `registerFlags` installs.
Durations are kept as their raw flag text: no claim exercises
`--shutdown-timeout`, so `time.ParseDuration` is not modelled. -/

def defaultSubSymbol : String := "{}"

structure Config : Type where
  command : List String
  source : String
  regexes : List String
  globs : List String
  inverseRegexes : List String
  inverseGlobs : List String
  subSymbol : String
  startService : Bool
  shutdownTimeout : String
  onlyFiles : Bool
  onlyDirs : Bool
  allFiles : Bool
deriving DecidableEq

/-- A fresh `&Config{}` after `registerFlags` installed the defaults. -/
def emptyConfig : Config :=
  { command := [], source := "", regexes := [], globs := []
    inverseRegexes := [], inverseGlobs := [], subSymbol := defaultSubSymbol
    startService := false, shutdownTimeout := "500ms"
    onlyFiles := false, onlyDirs := false, allFiles := false }

/-- The long names `Config.registerFlags` registers. -/
def lookupLong (nm : String) : Option String :=
  if nm = "regex" || nm = "inverse-regex" || nm = "glob" || nm = "inverse-glob"
      || nm = "substitute" || nm = "start-service" || nm = "shutdown-timeout"
      || nm = "only-files" || nm = "only-dirs" || nm = "all" then
    some nm
  else none

/-- The shorthands `Config.registerFlags` registers. -/
def lookupShort (c : Char) : Option String :=
  if c = 'r' then some "regex"
  else if c = 'R' then some "inverse-regex"
  else if c = 'g' then some "glob"
  else if c = 'G' then some "inverse-glob"
  else if c = 's' then some "start-service"
  else if c = 't' then some "shutdown-timeout"
  else none

def isBoolFlag (nm : String) : Bool :=
  nm = "start-service" || nm = "only-files" || nm = "only-dirs" || nm = "all"

/-- Store one flag value into the config.  The repeatable pattern flags use
`multiString.Set`, which appends (the defaults are nil). -/
def applyFlag (c : Config) (nm v : String) : Except String Config :=
  if nm = "regex" then .ok { c with regexes := c.regexes ++ [v] }
  else if nm = "inverse-regex" then .ok { c with inverseRegexes := c.inverseRegexes ++ [v] }
  else if nm = "glob" then .ok { c with globs := c.globs ++ [v] }
  else if nm = "inverse-glob" then .ok { c with inverseGlobs := c.inverseGlobs ++ [v] }
  else if nm = "substitute" then .ok { c with subSymbol := v }
  else if nm = "shutdown-timeout" then .ok { c with shutdownTimeout := v }
  else if nm = "start-service" || nm = "only-files" || nm = "only-dirs" || nm = "all" then
    match (if v = "true" then some true else if v = "false" then some false else none) with
    | none => .error ("invalid boolean value " ++ v)
    | some b =>
      if nm = "start-service" then .ok { c with startService := b }
      else if nm = "only-files" then .ok { c with onlyFiles := b }
      else if nm = "only-dirs" then .ok { c with onlyDirs := b }
      else .ok { c with allFiles := b }
  else .error ("unknown flag: --" ++ nm)

/-- Split `name=value` at the first `=` (`strings.SplitN(name, "=", 2)`). -/
def splitAtEq : List Char → List Char → String × Option String
  | [], acc => (String.mk acc.reverse, Option.none)
  | c :: rest, acc =>
    if c = '=' then (String.mk acc.reverse, some (String.mk rest))
    else splitAtEq rest (c :: acc)

/-- `parseLongArg`: `--name`, `--name=value` or `--name value`. -/
def parseLong (body : String) (rest : List String) (c : Config) :
    Except String (List String × Config) :=
  match body.data with
  | [] => .error "bad flag syntax"
  | c0 :: _ =>
    if c0 = '-' || c0 = '=' then .error "bad flag syntax"
    else
      let nv := splitAtEq body.data []
      match lookupLong nv.1 with
      | none => .error ("unknown flag: --" ++ nv.1)
      | some flagId =>
        match nv.2 with
        | some v => (applyFlag c flagId v).map (fun c2 => (rest, c2))
        | none =>
          if isBoolFlag flagId then
            (applyFlag c flagId "true").map (fun c2 => (rest, c2))
          else
            match rest with
            | [] => .error ("flag needs an argument: --" ++ nv.1)
            | v :: rest2 => (applyFlag c flagId v).map (fun c2 => (rest2, c2))

/-- `parseShortArg`: a run of shorthands; a value flag takes the remainder
of the run or the next argument. -/
def parseShort : List Char → List String → Config →
    Except String (List String × Config)
  | [], rest, c => .ok (rest, c)
  | ch :: more, rest, c =>
    match lookupShort ch with
    | none => .error ("unknown shorthand flag: " ++ String.mk [ch])
    | some flagId =>
      if isBoolFlag flagId then
        match applyFlag c flagId "true" with
        | .error e => .error e
        | .ok c2 => parseShort more rest c2
      else if !more.isEmpty then
        (applyFlag c flagId (String.mk more)).map (fun c2 => (rest, c2))
      else
        match rest with
        | [] => .error ("flag needs an argument: -" ++ String.mk [ch])
        | v :: rest2 => (applyFlag c flagId v).map (fun c2 => (rest2, c2))

/-- The pflag parse loop: flags and interspersed arguments; `--` ends flag
parsing.  Returns the updated config and the non-flag arguments. -/
def parseArgs : Nat → List String → Config → List String →
    Except String (Config × List String)
  | 0, _, _, _ => .error "out of fuel"
  | _ + 1, [], c, args => .ok (c, args)
  | fuel + 1, s :: rest, c, args =>
    match s.data with
    | [] => parseArgs fuel rest c (args ++ [s])
    | [_] => parseArgs fuel rest c (args ++ [s])
    | c0 :: c1 :: cs =>
      if c0 != '-' then parseArgs fuel rest c (args ++ [s])
      else if c1 = '-' then
        if cs.isEmpty then .ok (c, args ++ rest)
        else
          match parseLong (String.mk cs) rest c with
          | .error e => .error e
          | .ok (rest2, c2) => parseArgs fuel rest2 c2 args
      else
        match parseShort (c1 :: cs) rest c with
        | .error e => .error e
        | .ok (rest2, c2) => parseArgs fuel rest2 c2 args

/-- Go's `strings.Contains`. -/
def containsSub : List Char → List Char → Bool
  | [], needle => needle.isEmpty
  | c :: rest, needle => needle.isPrefixOf (c :: rest) || containsSub rest needle

/-- ASCII part of Go's `unicode.IsSpace`, enough for `strings.TrimSpace`
on config lines. -/
def isSpaceGo (c : Char) : Bool :=
  c == ' ' || c == '\t' || c == '\n' || c == '\r' || c == '\x0b' || c == '\x0c'

def trimSpace (cs : List Char) : List Char :=
  ((cs.dropWhile isSpaceGo).reverse.dropWhile isSpaceGo).reverse

/-- `bufio.Scanner` lines: split at `\n`, no line for the empty input, no
trailing empty line after a final `\n`. -/
def splitLinesAux : List Char → List Char → List (List Char)
  | [], acc => [acc.reverse]
  | c :: rest, acc =>
    if c = '\n' then acc.reverse :: splitLinesAux rest []
    else splitLinesAux rest (c :: acc)

def scannerLines (cs : List Char) : List (List Char) :=
  match cs with
  | [] => []
  | _ =>
    if cs.getLast? == some '\n' then (splitLinesAux cs []).dropLast
    else splitLinesAux cs []

/-- The continuation loop of `readConfigsFromReader`: while tokenizing
fails, strip a trailing backslash on an escape error, append the next
line, and retry; at end of input the error is returned.  Also returns the
lines consumed and how many they were. -/
def tokenizeWithCont : Nat → List Char → List (List Char) →
    Except String (List String × List (List Char) × Nat)
  | 0, _, _ => .error "out of fuel"
  | fuel + 1, line, moreLines =>
    match shellquoteSplit (String.mk line) with
    | .ok parts => .ok (parts, moreLines, 0)
    | .error e =>
      let line2 := if e = .unterminatedEscape then line.dropLast else line
      match moreLines with
      | [] => .error "unterminated line"
      | nextLine :: moreLines2 =>
        match tokenizeWithCont fuel (line2 ++ '\n' :: nextLine) moreLines2 with
        | .error e2 => .error e2
        | .ok (parts, restLines, k) => .ok (parts, restLines, k + 1)

/-- The per-line loop of `readConfigsFromReader` (config.go): skip blank
and `#` lines, tokenize with continuations, parse the flags into a fresh
config, and record the remaining arguments as the command. -/
def readConfigsLoop : Nat → List (List Char) → Nat → String → List Config →
    Except String (List Config)
  | 0, _, _, _, _ => .error "out of fuel"
  | _ + 1, [], _, _, configs => .ok configs.reverse
  | fuel + 1, line :: moreLines, lineNo, nm, configs =>
    let trimmed := trimSpace line
    if trimmed.isEmpty || trimmed.head? == some '#' then
      readConfigsLoop fuel moreLines (lineNo + 1) nm configs
    else
      match tokenizeWithCont (moreLines.length + 1) line moreLines with
      | .error e => .error e
      | .ok (parts, restLines, k) =>
        let src := nm ++ ", line " ++ toString (lineNo + 1)
        match parseArgs (parts.length + 1) parts { emptyConfig with source := src } [] with
        | .error e => .error e
        | .ok (c, args) =>
          readConfigsLoop fuel restLines (lineNo + 1 + k) nm
            ({ c with command := args } :: configs)

/-- `readConfigsFromReader` on the full input text. -/
def readConfigsFromString (input nm : String) : Except String (List Config) :=
  let ls := scannerLines input.data
  readConfigsLoop (ls.length + 1) ls 0 nm []

/-- The validation of `NewReflex` (reflex.go): non-empty command, non-empty
substitution symbol, no service with a substitution symbol in the command,
and not both `--only-files` and `--only-dirs`. -/
def NewReflexCheck (c : Config) : Except String Unit :=
  if c.command.length = 0 then .error "Must give command to execute."
  else if c.subSymbol = "" then .error "Substitution symbol must be non-empty."
  else
    let substitution := c.command.any (fun part => containsSub part.data c.subSymbol.data)
    if substitution && c.startService then
      .error "Using --start-service does not work with a command that has a substitution symbol."
    else if c.onlyFiles && c.onlyDirs then
      .error "Cannot specify both --only-files and --only-dirs."
    else .ok ()

def NewReflexAccepts (c : Config) : Bool :=
  match NewReflexCheck c with
  | .ok _ => true
  | .error _ => false

/-- The shape of `TestReadConfigsBad`: an input is rejected when reading
the configs errors, or when it yields at least one config and `NewReflex`
rejects every one. -/
def rejectsInput (input : String) : Bool :=
  match readConfigsFromString input "test input" with
  | .error _ => true
  | .ok configs => !configs.isEmpty && configs.all (fun c => !(NewReflexAccepts c))

/-! ## Theorems -/

theorem multiMatch_iff_all (ms : List Matcher) (nm : String) :
    multiMatch ms nm = true ↔ ∀ m ∈ ms, m.Match nm = true := by
  induction ms with
  | nil => simp [multiMatch]
  | cons m ms ih =>
    cases h : m.Match nm with
    | true => simp [multiMatch, h, ih]
    | false => simp [multiMatch, h]

theorem multiExclude_iff_any (ms : List Matcher) (pre : String) :
    multiExclude ms pre = true ↔ ∃ m ∈ ms, m.ExcludePrefix pre = true := by
  induction ms with
  | nil => simp [multiExclude]
  | cons m ms ih =>
    cases h : m.ExcludePrefix pre with
    | true => simp [multiExclude, h]
    | false => simp [multiExclude, h, ih]

/-- C7: for every list of sub-matchers `ms`, every name and every prefix,
`multiMatcher ms` matches a name iff every member matches it, and it
excludes a prefix iff at least one member excludes it. -/
theorem c7_multiMatcher_and_or (ms : List Matcher) (nm pre : String) :
    ((multiMatcher ms).Match nm = true ↔ ∀ m ∈ ms, m.Match nm = true)
    ∧ ((multiMatcher ms).ExcludePrefix pre = true ↔
        ∃ m ∈ ms, m.ExcludePrefix pre = true) :=
  ⟨multiMatch_iff_all ms nm, multiExclude_iff_any ms pre⟩

/-- The parse of `foo$`. -/
def reFooDollar : Regexp := .cat (.lit "foo".data) .endText

/-- The parse of `foo\b`. -/
def reFooWordB : Regexp := .cat (.lit "foo".data) .wordBoundary

/-- The parse of `(foo\b)|(baz$)`. -/
def reFooWordBOrBazDollar : Regexp :=
  .alt (.capture (.cat (.lit "foo".data) .wordBoundary))
    (.capture (.cat (.lit "baz".data) .endText))

/-- C1 (amended): a non-inverse regex matcher never excludes a prefix; an
inverse regex matcher whose regex has no `$`, `\z` or `\b` op and whose
pattern text is non-empty excludes a prefix exactly when the regex matches
it; and the inverted patterns `foo$`, `foo\b` and `(foo\b)|(baz$)` do not
exclude the prefix `foo`. -/
theorem c1_regexMatcher_excludePrefix (pat : String) (re : Regexp) (pre : String) :
    ((newRegexMatcher pat re false).ExcludePrefix pre = false)
    ∧ (containsZeroWidth re = false → pat ≠ "" →
        (newRegexMatcher pat re true).ExcludePrefix pre = matchString re pre)
    ∧ ((newRegexMatcher "foo$" reFooDollar true).ExcludePrefix "foo" = false)
    ∧ ((newRegexMatcher "foo\\b" reFooWordB true).ExcludePrefix "foo" = false)
    ∧ ((newRegexMatcher "(foo\\b)|(baz$)" reFooWordBOrBazDollar true).ExcludePrefix
        "foo" = false) := by
  refine ⟨by simp [newRegexMatcher, regexMatcherExclude], ?_, by decide⟩
  intro h1 h2
  have hpat : (pat == "") = false := by
    simpa using h2
  cases hm : matchString re pre <;>
    simp [newRegexMatcher, regexMatcherExclude, hpat, h1, hm]

theorem c1_regexMatcher_excludePrefix_witness :
    containsZeroWidth (Regexp.lit "foo".data) = false ∧ ("foo" : String) ≠ "" ∧
    (newRegexMatcher "foo" (Regexp.lit "foo".data) true).ExcludePrefix "foo" =
      matchString (Regexp.lit "foo".data) "foo" :=
  ⟨by decide, by decide,
    (c1_regexMatcher_excludePrefix "foo" (Regexp.lit "foo".data) "foo").2.1
      (by decide) (by decide)⟩

/-- C1 counterexample: the empty pattern compiles, is inverse, contains no
zero-width op and matches the prefix `foo`, yet `ExcludePrefix` is false —
the code's extra `m.regex.String() == ""` guard refutes the claimed
equivalence as stated. -/
theorem c1_empty_pattern_counterexample :
    containsZeroWidth Regexp.emptyMatch = false
    ∧ matchString Regexp.emptyMatch "foo" = true
    ∧ (newRegexMatcher "" Regexp.emptyMatch true).ExcludePrefix "foo" = false :=
  ⟨by decide, by decide, by decide⟩

/-- C3 (amended): the built-in default exclude matcher consists of exactly
eight inverse regexes — the seven of the spec plus `(^|/)\.jj/` — and its
`Match` reproduces the spec's truth table (excluded names give `false`,
the others `true`). -/
theorem c3_defaultExcludes_table :
    defaultExcludes.map Prod.fst =
      ["(^|/)\\.jj/", "(^|/)\\.git/", "(^|/)\\.hg/", "~$", "\\.swp$", "\\.#",
        "(^|/)#.*#$", "(^|/)\\.DS_Store$"]
    ∧ defaultExcludeMatcher.Match ".git/HEAD" = false
    ∧ defaultExcludeMatcher.Match "foo/bar/.git/HEAD" = false
    ∧ defaultExcludeMatcher.Match "foo~" = false
    ∧ defaultExcludeMatcher.Match "foo.swp" = false
    ∧ defaultExcludeMatcher.Match "foo/bar.swp" = false
    ∧ defaultExcludeMatcher.Match "foo.#123" = false
    ∧ defaultExcludeMatcher.Match "foo/bar.#123" = false
    ∧ defaultExcludeMatcher.Match "#foo#" = false
    ∧ defaultExcludeMatcher.Match "foo/#bar#" = false
    ∧ defaultExcludeMatcher.Match ".DS_Store" = false
    ∧ defaultExcludeMatcher.Match "foo/.DS_Store" = false
    ∧ defaultExcludeMatcher.Match "foo.git" = true
    ∧ defaultExcludeMatcher.Match "foo/bar.git" = true
    ∧ defaultExcludeMatcher.Match "~foo" = true
    ∧ defaultExcludeMatcher.Match "foo.swp.bar" = true
    ∧ defaultExcludeMatcher.Match "foo#123" = true := by
  decide

/-- C3 counterexample: the pattern list is not the claimed seven — the
code also excludes `(^|/)\.jj/`, so a name under `.jj/` is excluded
although the claimed matcher would admit it. -/
theorem c3_jj_counterexample :
    ¬ (defaultExcludes.map Prod.fst =
      ["(^|/)\\.git/", "(^|/)\\.hg/", "~$", "\\.swp$", "\\.#", "(^|/)#.*#$",
        "(^|/)\\.DS_Store$"])
    ∧ defaultExcludeMatcher.Match ".jj/config" = false :=
  ⟨by decide, by decide⟩

theorem unifiedAddAll_of_nonempty (ps : List String) (b : UnifiedBacklog)
    (h : b.empty = false) : b.addAll ps = b := by
  induction ps generalizing b with
  | nil => rfl
  | cons p ps ih =>
    have hb : b.Add p = b := by simp [UnifiedBacklog.Add, h]
    show (b.Add p).addAll ps = b
    rw [hb, ih b h]

theorem uniqueDrainAux_of_nonempty (fuel : Nat) (b : UniqueFilesBacklog)
    (hne : b.empty = false) (hf : b.rest.length < fuel) :
    UniqueFilesBacklog.drainAux fuel b = some (b.next :: b.rest) := by
  induction fuel generalizing b with
  | zero => omega
  | succ fuel ih =>
    cases hr : b.rest with
    | nil =>
      simp [UniqueFilesBacklog.drainAux, UniqueFilesBacklog.Next,
        UniqueFilesBacklog.RemoveOne, hne, hr]
    | cons x xs =>
      have hlen : xs.length < fuel := by
        have := hf
        rw [hr] at this
        simpa using Nat.lt_of_succ_lt_succ this
      have hrec := ih { empty := false, next := x, rest := xs } rfl hlen
      simp [UniqueFilesBacklog.drainAux, UniqueFilesBacklog.Next,
        UniqueFilesBacklog.RemoveOne, hne, hr, hrec]

theorem uniqueAddAll_state (ps : List String) (b : UniqueFilesBacklog)
    (hne : b.empty = false) (hnodup : b.rest.Nodup) (hnotin : b.next ∉ b.rest) :
    (b.addAll ps).empty = false ∧ (b.addAll ps).next = b.next
    ∧ (b.addAll ps).rest.Nodup ∧ b.next ∉ (b.addAll ps).rest
    ∧ ∀ x, x ∈ (b.addAll ps).rest ↔ x ∈ b.rest ∨ (x ∈ ps ∧ x ≠ b.next) := by
  induction ps generalizing b with
  | nil =>
    refine ⟨hne, rfl, hnodup, hnotin, ?_⟩
    intro x
    simp [UniqueFilesBacklog.addAll]
  | cons p ps ih =>
    show (b.addAll (p :: ps)).empty = false ∧ _
    have hstep : b.addAll (p :: ps) = (b.Add p).addAll ps := rfl
    by_cases hp : p = b.next
    · have hadd : b.Add p = b := by
        cases b
        simp_all [UniqueFilesBacklog.Add]
      rw [hstep, hadd]
      obtain ⟨e1, e2, e3, e4, e5⟩ := ih b hne hnodup hnotin
      refine ⟨e1, e2, e3, e4, ?_⟩
      intro x
      rw [e5 x]
      constructor
      · rintro (hx | hx)
        · exact Or.inl hx
        · exact Or.inr ⟨List.mem_cons_of_mem _ hx.1, hx.2⟩
      · rintro (hx | ⟨hx1, hx2⟩)
        · exact Or.inl hx
        · rcases List.mem_cons.mp hx1 with h1 | h1
          · exact absurd (h1.trans hp) hx2
          · exact Or.inr ⟨h1, hx2⟩
    · by_cases hmem : p ∈ b.rest
      · have hadd : b.Add p = b := by
          cases b
          simp_all [UniqueFilesBacklog.Add]
        rw [hstep, hadd]
        obtain ⟨e1, e2, e3, e4, e5⟩ := ih b hne hnodup hnotin
        refine ⟨e1, e2, e3, e4, ?_⟩
        intro x
        rw [e5 x]
        constructor
        · rintro (hx | hx)
          · exact Or.inl hx
          · exact Or.inr ⟨List.mem_cons_of_mem _ hx.1, hx.2⟩
        · rintro (hx | ⟨hx1, hx2⟩)
          · exact Or.inl hx
          · rcases List.mem_cons.mp hx1 with h1 | h1
            · exact Or.inl (h1 ▸ hmem)
            · exact Or.inr ⟨h1, hx2⟩
      · have hadd : b.Add p =
            { empty := false, next := b.next, rest := b.rest ++ [p] } := by
          cases b
          simp_all [UniqueFilesBacklog.Add]
        rw [hstep, hadd]
        have hnodup2 : (b.rest ++ [p]).Nodup := by
          simp [List.nodup_append, hnodup, hmem]
        have hnotin2 : b.next ∉ b.rest ++ [p] := by
          simp [hnotin]
          exact fun h => hp h.symm
        obtain ⟨e1, e2, e3, e4, e5⟩ :=
          ih { empty := false, next := b.next, rest := b.rest ++ [p] } rfl
            hnodup2 hnotin2
        refine ⟨e1, e2, e3, e4, ?_⟩
        intro x
        rw [e5 x]
        simp only [List.mem_append, List.mem_singleton, List.mem_cons,
          List.not_mem_nil, or_false]
        constructor
        · rintro ((hx | hx) | hx)
          · exact Or.inl hx
          · exact Or.inr ⟨Or.inl hx, hx ▸ hp⟩
          · exact Or.inr ⟨Or.inr hx.1, hx.2⟩
        · rintro (hx | ⟨hx1 | hx1, hx2⟩)
          · exact Or.inl (Or.inl hx)
          · exact Or.inl (Or.inr hx1)
          · exact Or.inr ⟨hx1, hx2⟩

/-- C2: from the empty backlog, after any non-empty list of `Add`s,
draining by repeated `Next` + `RemoveOne` until `RemoveOne` reports
`empty = true` emits, for `UnifiedBacklog`, exactly the first added path,
and for `UniqueFilesBacklog`, a duplicate-free list holding exactly the
distinct added paths with the first added path emitted first (the final
`RemoveOne` returning `empty = true` is what lets `drain` return a value). -/
theorem c2_backlog_drains (p : String) (ps : List String) :
    (NewUnifiedBacklog.addAll (p :: ps)).drain = some [p]
    ∧ ∃ l : List String,
        (NewUniqueFilesBacklog.addAll (p :: ps)).drain = some l
        ∧ l.Nodup ∧ (∀ x, x ∈ l ↔ x ∈ p :: ps) ∧ l.head? = some p := by
  constructor
  · have h1 : NewUnifiedBacklog.addAll (p :: ps) =
        (NewUnifiedBacklog.Add p).addAll ps := rfl
    have h2 : NewUnifiedBacklog.Add p = { s := p, empty := false } := rfl
    rw [h1, h2, unifiedAddAll_of_nonempty ps _ rfl]
    rfl
  · obtain ⟨e1, e2, e3, e4, e5⟩ :=
      uniqueAddAll_state ps { empty := false, next := p, rest := [] } rfl
        (by simp) (by simp)
    dsimp only at e2 e4 e5
    simp only [List.not_mem_nil, false_or] at e5
    refine ⟨p :: (({ empty := false, next := p, rest := [] } :
      UniqueFilesBacklog).addAll ps).rest, ?_, ?_, ?_, by simp⟩
    · show (({ empty := false, next := p, rest := [] } :
        UniqueFilesBacklog).addAll ps).drain = _
      unfold UniqueFilesBacklog.drain
      rw [uniqueDrainAux_of_nonempty _ _ e1 (Nat.lt_succ_self _), e2]
    · exact List.nodup_cons.mpr ⟨e4, e3⟩
    · intro x
      rw [List.mem_cons, List.mem_cons, e5 x]
      constructor
      · rintro (hx | ⟨hx1, _⟩)
        · exact Or.inl hx
        · exact Or.inr hx1
      · rintro (hx | hx)
        · exact Or.inl hx
        · by_cases hxp : x = p
          · exact Or.inl hxp
          · exact Or.inr ⟨hx, hxp⟩

theorem c2_backlog_drains_witness :
    (NewUnifiedBacklog.addAll ["foo", "bar"]).drain = some ["foo"]
    ∧ (NewUniqueFilesBacklog.addAll ["foo", "bar"]).drain = some ["foo", "bar"] :=
  ⟨(c2_backlog_drains "foo" ["bar"]).1, by decide⟩

/-- C6: `Next` and `RemoveOne` fault (modelled as `none`) exactly on an
empty backlog: on a fresh backlog, and on any backlog left by a
`RemoveOne` that reported `empty = true`; on a non-empty backlog they
always return a value. -/
theorem c6_backlog_empty_ops_fault :
    (NewUnifiedBacklog.Next = none ∧ NewUnifiedBacklog.RemoveOne = none
      ∧ NewUniqueFilesBacklog.Next = none ∧ NewUniqueFilesBacklog.RemoveOne = none)
    ∧ (∀ b b2 : UnifiedBacklog, b.RemoveOne = some (b2, true) →
        b2.Next = none ∧ b2.RemoveOne = none)
    ∧ (∀ b b2 : UniqueFilesBacklog, b.RemoveOne = some (b2, true) →
        b2.Next = none ∧ b2.RemoveOne = none)
    ∧ (∀ b : UnifiedBacklog, b.empty = false →
        b.Next.isSome = true ∧ b.RemoveOne.isSome = true)
    ∧ (∀ b : UniqueFilesBacklog, b.empty = false →
        b.Next.isSome = true ∧ b.RemoveOne.isSome = true) := by
  refine ⟨⟨rfl, rfl, rfl, rfl⟩, ?_, ?_, ?_, ?_⟩
  · intro b b2 h
    cases hb : b.empty
    · simp only [UnifiedBacklog.RemoveOne, hb, Bool.false_eq_true, if_false,
        Option.some.injEq, Prod.mk.injEq, and_true] at h
      subst h
      exact ⟨rfl, rfl⟩
    · simp [UnifiedBacklog.RemoveOne, hb] at h
  · intro b b2 h
    cases hb : b.empty
    · cases hr : b.rest with
      | nil =>
        simp only [UniqueFilesBacklog.RemoveOne, hb, Bool.false_eq_true, if_false,
          hr, Option.some.injEq, Prod.mk.injEq, and_true] at h
        subst h
        exact ⟨rfl, rfl⟩
      | cons x xs =>
        simp [UniqueFilesBacklog.RemoveOne, hb, hr] at h
    · simp [UniqueFilesBacklog.RemoveOne, hb] at h
  · intro b hb
    simp [UnifiedBacklog.Next, UnifiedBacklog.RemoveOne, hb]
  · intro b hb
    cases hr : b.rest <;>
      simp [UniqueFilesBacklog.Next, UniqueFilesBacklog.RemoveOne, hb, hr]

theorem c6_backlog_empty_ops_fault_witness :
    ((UnifiedBacklog.mk "foo" false).Next.isSome = true
        ∧ (UnifiedBacklog.mk "foo" false).RemoveOne.isSome = true)
    ∧ (UnifiedBacklog.mk "" true).Next = none
    ∧ (UnifiedBacklog.mk "" true).RemoveOne = none :=
  ⟨c6_backlog_empty_ops_fault.2.2.2.1 (UnifiedBacklog.mk "foo" false) rfl,
    c6_backlog_empty_ops_fault.2.1 (UnifiedBacklog.mk "foo" false)
      (UnifiedBacklog.mk "" true) rfl⟩

theorem appendRegexes_eq_compileAll (compile : String → Option Regexp)
    (inverse : Bool) (rs : List String) (acc : List Matcher) :
    appendRegexes compile inverse rs acc =
      (compileAll compile inverse rs).map (fun l => acc ++ l) := by
  induction rs generalizing acc with
  | nil => simp [appendRegexes, compileAll]
  | cons r rs ih =>
    cases hc : compile r with
    | none => simp [appendRegexes, compileAll, hc]
    | some re =>
      rw [appendRegexes, compileAll]
      simp only [hc, ih]
      cases compileAll compile inverse rs <;> simp

/-- C4 (amended): `ParseMatchers` prepends a `matchAll` exactly when the
positive regex list and the positive glob list are both empty — also when
the inverse lists are not — then appends, in order, the positive regex
matchers, the inverse regex matchers, the positive glob matchers and the
inverse glob matchers; it fails exactly when a pattern of one of the two
regex lists fails to compile (glob patterns are never compiled at
construction time). -/
theorem c4_ParseMatchers_spec (compile : String → Option Regexp)
    (regexes inverseRegexes globs inverseGlobs : List String) :
    ParseMatchers compile regexes inverseRegexes globs inverseGlobs =
      ParseMatchersSpec compile regexes inverseRegexes globs inverseGlobs := by
  unfold ParseMatchers ParseMatchersSpec
  dsimp only
  rw [appendRegexes_eq_compileAll]
  cases h1 : compileAll compile false regexes with
  | none => rfl
  | some pos =>
    dsimp only [Option.map]
    rw [appendRegexes_eq_compileAll]
    cases h2 : compileAll compile true inverseRegexes with
    | none => rfl
    | some inv => simp [List.append_assoc]

/-- C4 counterexample: with only an inverse regex the returned member list
is `[matchAll, inverse-regex]` — two members whose first matches
everything — where the claim as stated demands the single inverse regex
matcher; and a malformed glob pattern (`[`) is accepted without error. -/
theorem c4_matchAll_counterexample :
    ((ParseMatchers compileFixture [] ["foo"] [] []).map List.length = some 2)
    ∧ (((ParseMatchers compileFixture [] ["foo"] [] []).bind List.head?).map
        (fun m => m.Match "foo") = some true)
    ∧ ((ParseMatchers compileFixture [] [] ["["] []).map List.length = some 1) := by
  decide

/-- C5: each of the invalid configuration inputs fails at config parsing or
at rule construction: a config whose command is empty always fails
`NewReflex`, and the five concrete inputs of the test are rejected by the
parse-then-construct pipeline. -/
theorem c5_invalid_configs_rejected :
    (∀ c : Config, c.command = [] → NewReflexAccepts c = false)
    ∧ rejectsInput "--abc echo hi" = true
    ∧ rejectsInput "-g '*.go'" = true
    ∧ rejectsInput "--substitute='' echo hi" = true
    ∧ rejectsInput "-s echo {}" = true
    ∧ rejectsInput "--only-files --only-dirs echo hi" = true := by
  refine ⟨?_, by decide⟩
  intro c h
  simp [NewReflexAccepts, NewReflexCheck, h]

theorem c5_invalid_configs_rejected_witness :
    emptyConfig.command = [] ∧ NewReflexAccepts emptyConfig = false :=
  ⟨rfl, c5_invalid_configs_rejected.1 emptyConfig rfl⟩

/-- C8: with decoration `none`, `printMsg` writes the message verbatim;
with decoration `plain` it writes the tag `[NN] ` (two-digit zero-padded
rule id) or `[info] ` for negative ids, then the message; and in every
decoration mode the terminating newline is appended exactly when the
message does not already end in one. -/
theorem c8_printMsg_modes (gid : Int) (m : OutMsg) :
    (printMsg .none gid m = m.msg ++ (if endsWithNewline m.msg then "" else "\n"))
    ∧ (printMsg .plain gid m =
        (if m.reflexID < 0 then "[info]" else "[" ++ sprintf02d m.reflexID ++ "]")
          ++ " " ++ m.msg ++ (if endsWithNewline m.msg then "" else "\n"))
    ∧ (∀ d : Decoration,
        printMsg d gid m = printMsgBody d gid m
          ++ (if endsWithNewline m.msg then "" else "\n")) := by
  refine ⟨?_, ?_, ?_⟩
  · cases h : endsWithNewline m.msg <;>
      simp [printMsg, printMsgBody, h, String.empty_append, String.append_empty]
  · cases h : endsWithNewline m.msg <;>
      cases hid : decide (m.reflexID < 0) <;>
      simp_all [printMsg, printMsgBody, String.append_assoc, String.append_empty]
  · intro d
    cases h : endsWithNewline m.msg <;>
      simp [printMsg, h, String.append_empty]

/-- C9's behaviour at a failing input: with fancy decoration and the global
rule counter at its initial value 0, the info id `-7` is colored
`32 + (-7 tmod 5) = 30`, not red (31), because the red override tests the
global `reflexID` instead of `msg.reflexID`; the conventional info id `-1`
still comes out 31 only by arithmetic accident, and nonnegative ids get
`32 + id mod 5`. -/
theorem c9_fancy_color_eval :
    printMsg .fancy 0 (OutMsg.mk (-7) "hi") = "\x1b[01;30m[info] hi\x1b[m\n"
    ∧ printMsg .fancy 0 (OutMsg.mk (-1) "hi") = "\x1b[01;31m[info] hi\x1b[m\n"
    ∧ printMsg .fancy 0 (OutMsg.mk 3 "hi") = "\x1b[01;35m[03] hi\x1b[m\n"
    ∧ printMsg .fancy 0 (OutMsg.mk 7 "hi") = "\x1b[01;34m[07] hi\x1b[m\n" := by
  decide

/-- C10: a glob pattern on which `filepath.Match` reports a pattern error
makes `globMatcher.Match` return `false` for every name and either inverse
flag — never an error, and never a universal match for the inverse
matcher; the malformed pattern `[` errors on every name. -/
theorem c10_malformed_glob_matches_nothing :
    (∀ (pat nm : String) (inverse : Bool), filepathMatch pat nm = none →
      (globMatcher pat inverse).Match nm = false)
    ∧ (∀ nm : String, filepathMatch "[" nm = none) := by
  constructor
  · intro pat nm inverse h
    simp [globMatcher, globMatcherMatch, h]
  · intro nm
    obtain ⟨cs⟩ := nm
    cases cs with
    | nil => rfl
    | cons c rest => rfl

theorem c10_malformed_glob_matches_nothing_witness :
    filepathMatch "[" "x" = none
    ∧ (globMatcher "[" true).Match "x" = false
    ∧ (globMatcher "[" false).Match "x" = false :=
  ⟨c10_malformed_glob_matches_nothing.2 "x",
    c10_malformed_glob_matches_nothing.1 "[" "x" true
      (c10_malformed_glob_matches_nothing.2 "x"),
    c10_malformed_glob_matches_nothing.1 "[" "x" false
      (c10_malformed_glob_matches_nothing.2 "x")⟩

end Reflex
